import Mathlib

/-!
Verification of the chess-coach analysis pipeline
(`fetch_games_chess_dot_com.py` / `fetech_games.py`).

The two scripts share the same analysis core: a score normalizer
(`score_to_cp`), a move evaluator (`get_centipawn_loss`), severity and
phase classifiers (`get_mistake_category`, `get_game_phase`), a per-game
walker (`analyze_game`), an aggregator (`aggregate_all_games`), a
reporter (`generate_report`) and, in the chess.com script only, a
persistence routine (`save_game_analysis`) and an HTTP fetcher
(`fetch_chessdotcom_games`).  External collaborators (the UCI engine,
the chess rules library's board, the HTTP layer, SHA-256) are modelled
as oracles/abstract parameters; everything else is translated directly
from the Python source.
-/

namespace ChessCoach

/-- An engine evaluation as delivered by `info['score'].relative`:
either a plain centipawn value (`Cp`) or a forced mate in `n`
(`Mate n`, `n` signed; python-chess `score.mate()`). -/
inductive Score where
  | cp (v : Int)
  | mate (n : Int)
deriving DecidableEq, Repr

/-- Python `score.is_mate()`. -/
def Score.is_mate : Score → Bool
  | .cp _ => false
  | .mate _ => true

/-- Python `score.mate()` (only meaningful when `is_mate`; python-chess
returns `None` for a Cp score, which `score_to_cp` never touches — we
return 0 in that dead branch). -/
def Score.mateVal : Score → Int
  | .cp _ => 0
  | .mate n => n

/-- Python `score.cp` (only read in the non-mate branch; 0 in the dead
branch). -/
def Score.cpVal : Score → Int
  | .cp v => v
  | .mate _ => 0

/-- `score_to_cp(score, mate_value=10000)` from the source:
mate scores map to `mate_value - N` (winning, `N > 0`) or
`-(mate_value + abs(N))` (otherwise); non-mate scores pass through. -/
def score_to_cp (score : Score) (mate_value : Int := 10000) : Int :=
  if score.is_mate then
    let mate_in := score.mateVal
    if mate_in > 0 then
      mate_value - mate_in
    else
      -(mate_value + (mate_in.natAbs : Int))
  else
    score.cpVal

/-- A move of the external chess rules library, abstract. -/
abbrev Move := Nat

/-- Side to move. -/
inductive Color where
  | white
  | black
deriving DecidableEq, Repr

def Color.other : Color → Color
  | .white => .black
  | .black => .white

/-- Model of the external chess library's mutable board: the initial
position (abstracted to its side to move, all the walker reads) plus
the stack of moves pushed so far.  `push` applies a move, `pop` undoes
the most recent one — the library's documented semantics. -/
structure Board where
  startTurn : Color
  stack : List Move
deriving DecidableEq, Repr

/-- `board.push(move)`: apply `move`, growing the move stack. -/
def Board.push (b : Board) (m : Move) : Board :=
  { b with stack := b.stack ++ [m] }

/-- `board.pop()`: undo the most recently pushed move. -/
def Board.pop (b : Board) : Board :=
  { b with stack := b.stack.dropLast }

/-- `board.turn`: the side to move, which alternates with every pushed
half-move. -/
def Board.turn (b : Board) : Color :=
  if b.stack.length % 2 = 0 then b.startTurn else b.startTurn.other

/-- The engine oracle: `engine.analyse(board, Limit(depth=18))['score'].relative`
as a function of the board position.  The engine is an external
collaborator; `analyse` does not change the board. -/
abbrev Engine := Board → Score

/-- `get_centipawn_loss(engine, board, move)` from the source.  The
Python function mutates `board` (push, analyse, pop); we pass the board
state explicitly and return the final board alongside the CPL:
evaluate the position before the move, push the move, evaluate again,
pop, and return `max(0, score_best - score_actual)`. -/
def get_centipawn_loss (engine : Engine) (board : Board) (move : Move) :
    Int × Board :=
  let info_best := engine board
  let score_best := score_to_cp info_best 10000
  let board1 := board.push move
  let info_actual := engine board1
  let score_actual := score_to_cp info_actual 10000
  let board2 := board1.pop
  let cpl := score_best - score_actual
  (max 0 cpl, board2)

/-- `get_mistake_category(cpl)` from the source: cascaded thresholds
over the centipawn loss. -/
def get_mistake_category (cpl : Int) : String :=
  if cpl > 300 then "Blunder"
  else if cpl > 100 then "Mistake"
  else if cpl > 50 then "Inaccuracy"
  else "Good Move"

/-- `get_game_phase(move_num)` from the source: phase bucketed by the
half-move count. -/
def get_game_phase (move_num : Int) : String :=
  if move_num ≤ 10 then "Opening"
  else if move_num ≤ 30 then "Middlegame"
  else "Endgame"

/-- One phase's accumulator in `phase_cpl_sum`: the per-phase dict
`{'cpl': 0, 'count': 0}`. -/
structure PhaseStat where
  cpl : Int
  count : Nat
deriving DecidableEq, Repr

/-- The per-game `analysis_data` dictionary built by `analyze_game`.
The two `defaultdict`s are modelled extensionally as total functions
with default value `0` / `{'cpl': 0, 'count': 0}` on every unwritten
key, exactly the value a `defaultdict` lookup yields. -/
structure AnalysisData where
  moves_analyzed : Nat
  mistakes_by_phase : String → Nat
  phase_cpl_sum : String → PhaseStat
  user_cpl_values : List Int

/-- The fresh `analysis_data` dictionary at the top of `analyze_game`. -/
def initial_analysis_data : AnalysisData where
  moves_analyzed := 0
  mistakes_by_phase := fun _ => 0
  phase_cpl_sum := fun _ => ⟨0, 0⟩
  user_cpl_values := []

/-- What `analyze_game` reads from the parsed PGN: the `White`/`Black`
headers, the mainline move list, and the initial position
(`game.board()`), abstracted to its side to move. -/
structure GameRec where
  white : String
  black : String
  startTurn : Color
  moves : List Move

/-- One iteration of the `for move in game.mainline_moves()` loop of
`analyze_game`; the loop state is (board, move_count, analysis_data).
The user-turn test compares the header name for the side to move
before the move is applied against the configured username; on a user
move the CPL is probed (restoring the board), the value appended, the
composite mistake label bumped when the severity is not Good Move, and
the phase accumulator bumped; every move is then pushed. -/
def analyze_step (engine : Engine) (username white black : String)
    (st : Board × Nat × AnalysisData) (move : Move) :
    Board × Nat × AnalysisData :=
  let board := st.1
  let move_count := st.2.1 + 1
  let data := st.2.2
  if (board.turn = Color.white ∧ white = username) ∨
     (board.turn = Color.black ∧ black = username) then
    let r := get_centipawn_loss engine board move
    let cpl := r.1
    let board := r.2
    let data := { data with
      user_cpl_values := data.user_cpl_values ++ [cpl]
      moves_analyzed := data.moves_analyzed + 1 }
    let category := get_mistake_category cpl
    let phase := get_game_phase (move_count : Int)
    let data :=
      if category ≠ "Good Move" then
        { data with mistakes_by_phase := fun k =>
            if k = phase ++ " - " ++ category then data.mistakes_by_phase k + 1
            else data.mistakes_by_phase k }
      else data
    let data := { data with phase_cpl_sum := fun k =>
        if k = phase then
          ⟨(data.phase_cpl_sum k).cpl + cpl, (data.phase_cpl_sum k).count + 1⟩
        else data.phase_cpl_sum k }
    (board.push move, move_count, data)
  else
    (board.push move, move_count, data)

/-- `analyze_game(game_pgn, engine)` from the source: replay the
mainline from the initial position with `move_count` starting at 0 and
return the accumulated `analysis_data`.  The global `USERNAME` is
passed explicitly. -/
def analyze_game (game : GameRec) (engine : Engine) (username : String) :
    AnalysisData :=
  (game.moves.foldl (analyze_step engine username game.white game.black)
    (⟨game.startTurn, []⟩, 0, initial_analysis_data)).2.2

/-- The `final_summary` dictionary built by `aggregate_all_games`,
modelled like `AnalysisData`. -/
structure FinalSummary where
  total_user_cpl_values : List Int
  total_moves_analyzed : Nat
  mistakes_by_phase : String → Nat
  phase_cpl_sum : String → PhaseStat

/-- The fresh `final_summary` dictionary. -/
def initial_final_summary : FinalSummary where
  total_user_cpl_values := []
  total_moves_analyzed := 0
  mistakes_by_phase := fun _ => 0
  phase_cpl_sum := fun _ => ⟨0, 0⟩

/-- One iteration of the `for data in all_results` loop of
`aggregate_all_games`: extend the CPL list, add the move count, and add
the mistake and phase accumulators pointwise.  The source iterates the
per-game dicts' items; keys absent from a given game's dict hold the
defaultdict value 0, so pointwise addition of the extensional maps is
the same map. -/
def aggregate_step (acc : FinalSummary) (data : AnalysisData) : FinalSummary where
  total_user_cpl_values := acc.total_user_cpl_values ++ data.user_cpl_values
  total_moves_analyzed := acc.total_moves_analyzed + data.moves_analyzed
  mistakes_by_phase := fun k => acc.mistakes_by_phase k + data.mistakes_by_phase k
  phase_cpl_sum := fun k =>
    ⟨(acc.phase_cpl_sum k).cpl + (data.phase_cpl_sum k).cpl,
     (acc.phase_cpl_sum k).count + (data.phase_cpl_sum k).count⟩

/-- `aggregate_all_games(all_results)` from the source: `None` on an
empty input (`if not all_results: return None`), otherwise the fold of
every per-game result into a fresh summary. -/
def aggregate_all_games (all_results : List AnalysisData) : Option FinalSummary :=
  match all_results with
  | [] => none
  | _ => some (all_results.foldl aggregate_step initial_final_summary)

/-- The three phase keys `get_game_phase` can produce, hence the only
keys `phase_cpl_sum` can hold. -/
def phase_names : List String := ["Opening", "Middlegame", "Endgame"]

/-- The nine composite labels `"<phase> - <category>"` the walker can
write into `mistakes_by_phase` (Good Move is never recorded). -/
def mistake_labels : List String :=
  ["Opening - Blunder", "Opening - Mistake", "Opening - Inaccuracy",
   "Middlegame - Blunder", "Middlegame - Mistake", "Middlegame - Inaccuracy",
   "Endgame - Blunder", "Endgame - Mistake", "Endgame - Inaccuracy"]

/-- One printed line of `generate_report`, with the string formatting
of the numeric payloads abstracted: each constructor records the
semantic content of the corresponding `print` call. -/
inductive ReportLine where
  | noData
  | noMoves
  | headline (avg_cpl : ℚ)
  | phaseHeader
  | phaseLine (phase : String) (acpl : ℚ) (count : Nat)
  | primaryFocus (phase : String)
  | mistakeHeader
  | insight (label : String)
  | separator
  | mistakeLine (label : String) (count : Nat)
  | totalLine (total : Nat)
deriving DecidableEq, Repr

/-- The phase-analysis loop of `generate_report`: one line per phase
with at least one recorded move, tracking the highest phase ACPL
(`max_acpl` starts at -1, `highest_cpl_phase` at `None`).  The source
iterates `phase_cpl_sum.items()` in insertion order, which the
extensional map does not retain; the possible keys are iterated in the
canonical `phase_names` order (the spec flags mapping iteration order
as non-deterministic). -/
def phase_loop (stats : String → PhaseStat) :
    List ReportLine × ℚ × Option String :=
  phase_names.foldl
    (fun acc phase =>
      let st := stats phase
      if st.count > 0 then
        let phase_acpl : ℚ := (st.cpl : ℚ) / (st.count : ℚ)
        let lines := acc.1 ++ [ReportLine.phaseLine phase phase_acpl st.count]
        if phase_acpl > acc.2.1 then (lines, phase_acpl, some phase)
        else (lines, acc.2.1, acc.2.2)
      else acc)
    ([], -1, none)

/-- `max(mistake_counts.items(), key=lambda item: item[1], ...)`: the
first label attaining the maximal count, with the dict's iteration
order modelled by the canonical `mistake_labels` order. -/
def most_common_error (counts : String → Nat) : String × Nat :=
  match mistake_labels.map (fun l => (l, counts l)) with
  | [] => ("None", 0)
  | x :: xs => xs.foldl (fun best item => if item.2 > best.2 then item else best) x

/-- `generate_report(aggregated_data)` from the source, its output
modelled as the list of printed lines.  `None` prints only the no-data
message; an empty CPL list prints only the no-moves message; otherwise
the overall ACPL headline, the phase lines and primary focus, and the
mistake breakdown (present labels are those with a positive count,
since the walker only ever writes a label by incrementing it). -/
def generate_report (aggregated_data : Option FinalSummary) : List ReportLine :=
  match aggregated_data with
  | none => [ReportLine.noData]
  | some d =>
    let user_cpl_values := d.total_user_cpl_values
    if user_cpl_values = [] then
      [ReportLine.noMoves]
    else
      let avg_cpl : ℚ := (user_cpl_values.sum : ℚ) / (user_cpl_values.length : ℚ)
      let pl := phase_loop d.phase_cpl_sum
      let focus_lines := match pl.2.2 with
        | some p => [ReportLine.primaryFocus p]
        | none => []
      let mistake_counts := d.mistakes_by_phase
      let present := mistake_labels.filter (fun l => mistake_counts l > 0)
      let mistake_lines :=
        if present ≠ [] then
          let mce := most_common_error mistake_counts
          if mce.2 > 0 then
            [ReportLine.insight mce.1, ReportLine.separator] ++
            present.map (fun l => ReportLine.mistakeLine l (mistake_counts l)) ++
            [ReportLine.totalLine (present.map mistake_counts).sum]
          else []
        else []
      [ReportLine.headline avg_cpl, ReportLine.phaseHeader] ++ pl.1 ++
        focus_lines ++ [ReportLine.mistakeHeader] ++ mistake_lines

/-- Headers `save_game_analysis` reads from the parsed game:
`game.headers.get("URL")` and `game.headers.get("Date", "1970.01.01")`. -/
structure GameHeaders where
  url : Option String
  date : Option String

/-- The row an upsert into `analyzed_games` would commit. -/
structure AnalyzedGameRow where
  game_url : String
  username : String
  date : String
  pgn : String
  overall_acpl : ℚ
  opening_acpl : ℚ
  middlegame_acpl : ℚ
  endgame_acpl : ℚ
  mistake_breakdown : String → Nat

/-- The local bindings of `save_game_analysis` holding the ACPL values
when control reaches `cursor.execute`: the function body binds `game`,
`game_url`, `game_date` and `mistake_json`, but nothing in it binds
`overall_acpl`, `opening_acpl`, `middlegame_acpl` or `endgame_acpl` —
only the comment "rest of the helper functions and ACPL calculations
are unchanged" stands where that computation would be.  Looking any of
the four names up therefore fails (Python raises `NameError`). -/
def save_acpl_locals : String → Option ℚ := fun _ => none

/-- `save_game_analysis(conn, game_pgn, analysis_data)` from the
source, with SHA-256 abstracted as a hash oracle and the database
modelled by the row a successful upsert would commit (`none` = no row
committed).  Steps: derive the stable id from the URL header or
`"SHA256_" ++ hash(pgn)`, default the date, serialize the mistake
counts; then evaluate the execute tuple, which looks up the four
never-bound ACPL locals — the `NameError` is caught by the
`except`, logged, and the transaction rolled back. -/
def save_game_analysis (sha256hex : String → String) (username : String)
    (game_pgn : String) (headers : GameHeaders)
    (analysis_data : AnalysisData) : Option AnalyzedGameRow :=
  let game_url :=
    match headers.url with
    | some u => u
    | none => "SHA256_" ++ sha256hex game_pgn
  let game_date := headers.date.getD "1970.01.01"
  let mistake_json := analysis_data.mistakes_by_phase
  match save_acpl_locals "overall_acpl", save_acpl_locals "opening_acpl",
        save_acpl_locals "middlegame_acpl", save_acpl_locals "endgame_acpl" with
  | some o, some op, some mg, some eg =>
      some { game_url := game_url, username := username, date := game_date,
             pgn := game_pgn, overall_acpl := o, opening_acpl := op,
             middlegame_acpl := mg, endgame_acpl := eg,
             mistake_breakdown := mistake_json }
  | _, _, _, _ => none

/-- One HTTP GET in the model: either a response (status code plus
parsed JSON body) or a connection-level failure raised before any
response object exists (DNS failure, refused connection — a
`requests.exceptions.RequestException` with no `response`). -/
inductive HttpResult (α : Type) where
  | response (status : Nat) (body : α)
  | connError (msg : String)

/-- The network oracle for `fetch_chessdotcom_games`: the outcome of
GETting the archives index (body: the `archives` URL list) and, per
archive URL, the outcome of GETting that archive (body: one entry per
game, `some pgn` for a truthy `pgn` field, `none` when the field is
missing or empty). -/
structure Network where
  archives_get : HttpResult (List String)
  archive_get : String → HttpResult (List (Option String))

/-- The inner `for game_data in reversed(games_json)` loop: append each
truthy `pgn` while the accumulated list is shorter than `max_games`;
as soon as it reaches `max_games` the source returns it from the whole
function, which the outer loop detects by its length. -/
def collect_pgns (max_games : Nat) (acc : List String) :
    List (Option String) → List String
  | [] => acc
  | g :: rest =>
    let acc' := match g with
      | some p => if acc.length < max_games then acc ++ [p] else acc
      | none => acc
    if max_games ≤ acc'.length then acc'
    else collect_pgns max_games acc' rest

/-- The `for url in reversed(archives)` loop: an archive GET that
raises (connection error or non-2xx via `raise_for_status`) is caught
by the inner `except`, logged and skipped (`continue`); a successful
body is scanned by the inner loop, the function returning once
`max_games` PGNs are collected. -/
def fetch_archives_loop (net : Network) (max_games : Nat) :
    List String → List String → List String
  | [], acc => acc
  | url :: rest, acc =>
    match net.archive_get url with
    | .connError _ => fetch_archives_loop net max_games rest acc
    | .response status games =>
      if 400 ≤ status then fetch_archives_loop net max_games rest acc
      else
        let acc' := collect_pgns max_games acc games.reverse
        if max_games ≤ acc'.length then acc'
        else fetch_archives_loop net max_games rest acc'

/-- `fetch_chessdotcom_games(username, max_games)` from the source;
`Except.error` models an exception escaping the function.  On a
connection failure of the archives-index request, control enters the
`except` block with the local `response` never bound, and the
handler's first statement `if response.status_code == 404` raises an
`UnboundLocalError` that escapes the function.  On a non-2xx archives
response (`raise_for_status` raised, `response` bound) the handler
logs and returns `[]`.  Otherwise the archive URLs are walked most
recent first. -/
def fetch_chessdotcom_games (net : Network) (max_games : Nat) :
    Except String (List String) :=
  match net.archives_get with
  | .connError _ =>
      .error "UnboundLocalError: local variable response referenced before assignment"
  | .response status archives =>
      if 400 ≤ status then .ok []
      else .ok (fetch_archives_loop net max_games archives.reverse [])

/-- The structural invariant of a per-game analysis result: the move
count equals the length of the CPL list and the sum of the per-phase
move counts, and the composite mistake-label counts total at most the
move count. -/
def AnalysisInv (d : AnalysisData) : Prop :=
  d.moves_analyzed = d.user_cpl_values.length ∧
  d.moves_analyzed = (phase_names.map (fun p => (d.phase_cpl_sum p).count)).sum ∧
  (mistake_labels.map d.mistakes_by_phase).sum ≤ d.moves_analyzed

/-- The same structural invariant on the aggregate summary. -/
def SummaryInv (s : FinalSummary) : Prop :=
  s.total_moves_analyzed = s.total_user_cpl_values.length ∧
  s.total_moves_analyzed =
    (phase_names.map (fun p => (s.phase_cpl_sum p).count)).sum ∧
  (mistake_labels.map s.mistakes_by_phase).sum ≤ s.total_moves_analyzed

/-- A concrete per-game result (one user move, CPL 0, in the opening),
used to instantiate hypotheses of the aggregator claims. -/
def sample_game_data : AnalysisData where
  moves_analyzed := 1
  mistakes_by_phase := fun _ => 0
  phase_cpl_sum := fun k => if k = "Opening" then ⟨0, 1⟩ else ⟨0, 0⟩
  user_cpl_values := [0]

/-- A concrete engine oracle (every position worth 0 centipawns), for
instantiating the analyzer claims. -/
def sample_engine : Engine := fun _ => Score.cp 0

/-- A concrete two-move game, for instantiating the analyzer claims. -/
def sample_game : GameRec where
  white := "alice"
  black := "bob"
  startTurn := Color.white
  moves := [0, 1]

/-- Unfolding lemma: `score_to_cp` on a mate score. -/
theorem score_to_cp_mate (n mv : Int) :
    score_to_cp (Score.mate n) mv =
      if n > 0 then mv - n else -(mv + (n.natAbs : Int)) := by
  simp [score_to_cp, Score.is_mate, Score.mateVal]

/-- Unfolding lemma: `score_to_cp` on a plain centipawn score. -/
theorem score_to_cp_cp (v mv : Int) : score_to_cp (Score.cp v) mv = v := rfl

/-- The phase classifier only ever produces the three phase names. -/
theorem get_game_phase_cases (n : Int) :
    get_game_phase n = "Opening" ∨ get_game_phase n = "Middlegame" ∨
    get_game_phase n = "Endgame" := by
  unfold get_game_phase
  split_ifs <;> simp

/-- The severity classifier only ever produces the four categories. -/
theorem get_mistake_category_cases (cpl : Int) :
    get_mistake_category cpl = "Blunder" ∨ get_mistake_category cpl = "Mistake" ∨
    get_mistake_category cpl = "Inaccuracy" ∨
    get_mistake_category cpl = "Good Move" := by
  unfold get_mistake_category
  split_ifs <;> simp

/-- The phase key written by the walker is among the three phase names. -/
theorem get_game_phase_mem (n : Int) : get_game_phase n ∈ phase_names := by
  rcases get_game_phase_cases n with h | h | h <;> rw [h] <;> decide

/-- The composite label written by the walker for a non-Good move is
among the nine possible labels. -/
theorem mistake_label_mem (n cpl : Int)
    (h : get_mistake_category cpl ≠ "Good Move") :
    (get_game_phase n ++ " - " ++ get_mistake_category cpl) ∈ mistake_labels := by
  rcases get_game_phase_cases n with hp | hp | hp <;>
    rcases get_mistake_category_cases cpl with hc | hc | hc | hc <;>
      first
        | exact absurd hc h
        | (rw [hp, hc]; decide)

/-- Bumping a key outside the summation list leaves the sum unchanged. -/
theorem sum_map_bump_not_mem (f : String → Nat) (L : String) :
    ∀ ls : List String, L ∉ ls →
      (ls.map fun k => if k = L then f k + 1 else f k).sum = (ls.map f).sum := by
  intro ls
  induction ls with
  | nil => intro _; rfl
  | cons a t ih =>
    intro h
    simp only [List.map_cons, List.sum_cons]
    have ha : a ≠ L := by rintro rfl; exact h (List.mem_cons_self _ _)
    rw [if_neg ha, ih (fun hm => h (List.mem_cons_of_mem _ hm))]

/-- Bumping a key that occurs once in the summation list raises the sum
by exactly one. -/
theorem sum_map_bump_mem (f : String → Nat) (L : String) :
    ∀ ls : List String, ls.Nodup → L ∈ ls →
      (ls.map fun k => if k = L then f k + 1 else f k).sum
        = (ls.map f).sum + 1 := by
  intro ls
  induction ls with
  | nil => intro _ h; cases h
  | cons a t ih =>
    intro hnd hmem
    simp only [List.map_cons, List.sum_cons]
    by_cases ha : a = L
    · subst ha
      have hnot : a ∉ t := (List.nodup_cons.mp hnd).1
      rw [if_pos rfl, sum_map_bump_not_mem f a t hnot]
      omega
    · rcases List.mem_cons.mp hmem with h | h
      · exact absurd h.symm ha
      · rw [if_neg ha, ih (List.nodup_cons.mp hnd).2 h]
        omega

/-- Mapped sums over pointwise additions split. -/
theorem sum_map_add_split (keys : List String) (f g : String → Nat) :
    (keys.map (fun p => f p + g p)).sum = (keys.map f).sum + (keys.map g).sum := by
  induction keys with
  | nil => rfl
  | cons a t ih =>
    simp only [List.map_cons, List.sum_cons, ih]
    omega

/-- Exchanging the order of a double summation over a key list and a
result list. -/
theorem sum_swap_keys (keys : List String) :
    ∀ (l : List AnalysisData) (g : AnalysisData → String → Nat),
      (keys.map (fun p => (l.map (fun d => g d p)).sum)).sum =
      (l.map (fun d => (keys.map (g d)).sum)).sum := by
  intro l
  induction l with
  | nil => intro g; simp
  | cons d t ih =>
    intro g
    simp only [List.map_cons, List.sum_cons]
    rw [sum_map_add_split keys (g d) (fun p => (t.map (fun d => g d p)).sum),
      ih g]

/-- Congruence of mapped sums over list members. -/
theorem sum_map_congr_mem (l : List AnalysisData) (f g : AnalysisData → Nat)
    (h : ∀ d ∈ l, f d = g d) : (l.map f).sum = (l.map g).sum := by
  induction l with
  | nil => rfl
  | cons d t ih =>
    simp only [List.map_cons, List.sum_cons]
    rw [h d (List.mem_cons_self _ _),
      ih (fun d hd => h d (List.mem_cons_of_mem _ hd))]

/-- Monotonicity of mapped sums over list members. -/
theorem sum_map_le_mem (l : List AnalysisData) (f g : AnalysisData → Nat)
    (h : ∀ d ∈ l, f d ≤ g d) : (l.map f).sum ≤ (l.map g).sum := by
  induction l with
  | nil => exact Nat.le_refl _
  | cons d t ih =>
    simp only [List.map_cons, List.sum_cons]
    exact Nat.add_le_add (h d (List.mem_cons_self _ _))
      (ih (fun d hd => h d (List.mem_cons_of_mem _ hd)))

/-- Componentwise description of the aggregation fold, for any starting
accumulator; shared by the aggregator claims. -/
theorem aggregate_foldl_spec (l : List AnalysisData) :
    ∀ acc : FinalSummary,
      ((l.foldl aggregate_step acc).total_user_cpl_values =
        acc.total_user_cpl_values ++ (l.map AnalysisData.user_cpl_values).flatten) ∧
      ((l.foldl aggregate_step acc).total_moves_analyzed =
        acc.total_moves_analyzed + (l.map AnalysisData.moves_analyzed).sum) ∧
      (∀ k, (l.foldl aggregate_step acc).mistakes_by_phase k =
        acc.mistakes_by_phase k + (l.map (fun d => d.mistakes_by_phase k)).sum) ∧
      (∀ k, ((l.foldl aggregate_step acc).phase_cpl_sum k).cpl =
        (acc.phase_cpl_sum k).cpl + (l.map (fun d => (d.phase_cpl_sum k).cpl)).sum ∧
        ((l.foldl aggregate_step acc).phase_cpl_sum k).count =
        (acc.phase_cpl_sum k).count + (l.map (fun d => (d.phase_cpl_sum k).count)).sum) := by
  induction l with
  | nil => intro acc; simp
  | cons d t ih =>
    intro acc
    obtain ⟨h1, h2, h3, h4⟩ := ih (aggregate_step acc d)
    refine ⟨?_, ?_, fun k => ?_, fun k => ?_⟩
    · rw [List.foldl_cons, h1, List.map_cons, List.flatten_cons]
      simp [aggregate_step, List.append_assoc]
    · rw [List.foldl_cons, h2, List.map_cons, List.sum_cons]
      simp [aggregate_step, Nat.add_assoc]
    · rw [List.foldl_cons, h3 k, List.map_cons, List.sum_cons]
      simp [aggregate_step, Nat.add_assoc]
    · obtain ⟨hc, hn⟩ := h4 k
      constructor
      · rw [List.foldl_cons, hc, List.map_cons, List.sum_cons]
        simp [aggregate_step, Int.add_assoc]
      · rw [List.foldl_cons, hn, List.map_cons, List.sum_cons]
        simp [aggregate_step, Nat.add_assoc]

/-- One analyzer loop iteration preserves the structural invariant. -/
theorem analyze_step_inv (engine : Engine) (username white black : String)
    (st : Board × Nat × AnalysisData) (move : Move)
    (h : AnalysisInv st.2.2) :
    AnalysisInv (analyze_step engine username white black st move).2.2 := by
  obtain ⟨h1, h2, h3⟩ := h
  simp only [analyze_step]
  split_ifs with hu hc
  · -- tracked-player move whose severity is recorded as a mistake
    refine ⟨?_, ?_, ?_⟩
    · dsimp only
      simp [h1]
    · dsimp only
      simp only [apply_ite PhaseStat.count]
      rw [sum_map_bump_mem (fun p => (st.2.2.phase_cpl_sum p).count)
        (get_game_phase ((st.2.1 + 1 : Nat) : Int)) phase_names (by decide)
        (get_game_phase_mem _)]
      omega
    · dsimp only
      rw [sum_map_bump_mem st.2.2.mistakes_by_phase
        (get_game_phase ((st.2.1 + 1 : Nat) : Int) ++ " - " ++
          get_mistake_category (get_centipawn_loss engine st.1 move).1)
        mistake_labels (by decide)
        (mistake_label_mem _ _ hc)]
      omega
  · -- tracked-player Good Move: no mistake label written
    refine ⟨?_, ?_, ?_⟩
    · dsimp only
      simp [h1]
    · dsimp only
      simp only [apply_ite PhaseStat.count]
      rw [sum_map_bump_mem (fun p => (st.2.2.phase_cpl_sum p).count)
        (get_game_phase ((st.2.1 + 1 : Nat) : Int)) phase_names (by decide)
        (get_game_phase_mem _)]
      omega
    · dsimp only
      omega
  · exact ⟨h1, h2, h3⟩

/-- The analyzer's walk preserves the structural invariant from any
starting state. -/
theorem analyze_foldl_inv (engine : Engine) (username white black : String) :
    ∀ (moves : List Move) (st : Board × Nat × AnalysisData),
      AnalysisInv st.2.2 →
      AnalysisInv ((moves.foldl (analyze_step engine username white black) st)).2.2 := by
  intro moves
  induction moves with
  | nil => intro st h; exact h
  | cons m t ih =>
    intro st h
    rw [List.foldl_cons]
    exact ih _ (analyze_step_inv engine username white black st m h)

/-- The fresh analysis dictionary satisfies the structural invariant. -/
theorem initial_analysis_data_inv : AnalysisInv initial_analysis_data := by
  refine ⟨rfl, ?_, ?_⟩ <;> simp [initial_analysis_data, phase_names, mistake_labels]

/-- The double-sum swap specialized to the per-phase move counts. -/
theorem phase_count_swap (l : List AnalysisData) :
    (phase_names.map (fun p => (l.map (fun d => (d.phase_cpl_sum p).count)).sum)).sum
      = (l.map (fun d => (phase_names.map (fun p => (d.phase_cpl_sum p).count)).sum)).sum :=
  sum_swap_keys phase_names l (fun d p => (d.phase_cpl_sum p).count)

/-- The double-sum swap specialized to the mistake-label counts. -/
theorem mistake_count_swap (l : List AnalysisData) :
    (mistake_labels.map (fun k => (l.map (fun d => d.mistakes_by_phase k)).sum)).sum
      = (l.map (fun d => (mistake_labels.map (fun k => d.mistakes_by_phase k)).sum)).sum :=
  sum_swap_keys mistake_labels l (fun d k => d.mistakes_by_phase k)

/-- The aggregation fold preserves the structural invariant whenever
every input satisfies it. -/
theorem aggregate_preserves_inv (l : List AnalysisData) (s : FinalSummary)
    (hall : ∀ d ∈ l, AnalysisInv d)
    (hagg : aggregate_all_games l = some s) : SummaryInv s := by
  have hs : s = l.foldl aggregate_step initial_final_summary := by
    cases l with
    | nil => exact Option.noConfusion hagg
    | cons d t => exact (Option.some.inj hagg).symm
  subst hs
  obtain ⟨h1, h2, h3, h4⟩ := aggregate_foldl_spec l initial_final_summary
  have h4c : ∀ k, ((l.foldl aggregate_step initial_final_summary).phase_cpl_sum k).count
      = (l.map (fun d => (d.phase_cpl_sum k).count)).sum := by
    intro k
    rw [(h4 k).2]
    simp [initial_final_summary]
  have hmf : (l.foldl aggregate_step initial_final_summary).mistakes_by_phase
      = fun k => (l.map (fun d => d.mistakes_by_phase k)).sum := by
    funext k
    rw [h3 k]
    simp [initial_final_summary]
  refine ⟨?_, ?_, ?_⟩
  · rw [h1, h2]
    simp only [initial_final_summary, List.nil_append, List.length_flatten,
      List.map_map, Nat.zero_add]
    rw [sum_map_congr_mem l AnalysisData.moves_analyzed
      (fun d => d.user_cpl_values.length) (fun d hd => (hall d hd).1)]
    rfl
  · rw [h2]
    simp only [h4c]
    rw [phase_count_swap l]
    have hcongr := sum_map_congr_mem l AnalysisData.moves_analyzed
      (fun d => (phase_names.map (fun p => (d.phase_cpl_sum p).count)).sum)
      (fun d hd => (hall d hd).2.1)
    simp only [initial_final_summary]
    omega
  · rw [h2, hmf]
    rw [mistake_count_swap l]
    have hle := sum_map_le_mem l
      (fun d => (mistake_labels.map (fun k => d.mistakes_by_phase k)).sum)
      AnalysisData.moves_analyzed
      (fun d hd => (hall d hd).2.2)
    simp only [initial_final_summary]
    omega

/-- C1: the move evaluator returns `max(0, best_score - score_after_move)`
where both scores are the normalized evaluations before and after the
played move, and the result is a non-negative integer. -/
theorem move_evaluator_clamped_loss (engine : Engine) (board : Board)
    (move : Move) :
    (get_centipawn_loss engine board move).1 =
      max 0 (score_to_cp (engine board) 10000 -
             score_to_cp (engine (board.push move)) 10000) ∧
    0 ≤ (get_centipawn_loss engine board move).1 := by
  refine ⟨rfl, ?_⟩
  simp [get_centipawn_loss]

/-- C2: the score normalizer passes a non-mate centipawn value through
unchanged, maps mate-in-N with N > 0 to `10000 - N`, and maps
mate-in-N with N < 0 to `-(10000 + |N|)`. -/
theorem score_normalizer_cases (v n : Int) :
    score_to_cp (Score.cp v) 10000 = v ∧
    (0 < n → score_to_cp (Score.mate n) 10000 = 10000 - n) ∧
    (n < 0 → score_to_cp (Score.mate n) 10000 = -(10000 + (n.natAbs : Int))) := by
  refine ⟨rfl, fun h => ?_, fun h => ?_⟩
  · simp [score_to_cp, Score.is_mate, Score.mateVal, h]
  · have h' : ¬ (0 : Int) < n := by omega
    simp [score_to_cp, Score.is_mate, Score.mateVal, h']

/-- Witness for C2 at concrete inputs: centipawn 37 passes through,
mate-in-3 normalizes to 9997, mate-in-(-3) to -10003. -/
theorem score_normalizer_cases_witness :
    (score_to_cp (Score.cp 37) 10000 = 37 ∧
     score_to_cp (Score.mate 3) 10000 = 10000 - 3) ∧
    score_to_cp (Score.mate (-3)) 10000 = -(10000 + ((-3 : Int).natAbs : Int)) :=
  ⟨⟨(score_normalizer_cases 37 3).1,
    (score_normalizer_cases 37 3).2.1 (by decide)⟩,
    (score_normalizer_cases 37 (-3)).2.2 (by decide)⟩

/-- C5: the move evaluator's push of the played move is always undone
by the matching pop — the board returned to the caller equals the board
it was handed, for every engine, board and move. -/
theorem move_evaluator_restores_board (engine : Engine) (board : Board)
    (move : Move) :
    (get_centipawn_loss engine board move).2 = board := by
  simp [get_centipawn_loss, Board.push, Board.pop]

/-- C8 counterexample: the claim "every winning-mate normalized score is
strictly greater than every losing-mate normalized score" fails without
a bound on the winning distance: mate-in-20001 (a winning mate, N > 0)
normalizes to -10001, exactly the normalized score of mate-in-(-1). -/
theorem mate_order_unbounded_counterexample :
    (0 : Int) < 20001 ∧ (-1 : Int) < 0 ∧
    ¬ (score_to_cp (Score.mate 20001) 10000 >
       score_to_cp (Score.mate (-1)) 10000) := by
  refine ⟨by decide, by decide, ?_⟩
  decide

/-- C3: on non-negative centipawn losses the severity classifier
returns Blunder iff cpl > 300, Mistake iff 100 < cpl <= 300,
Inaccuracy iff 50 < cpl <= 100 and Good Move iff cpl <= 50; on
half-move counts n >= 1 the phase classifier returns Opening iff
n <= 10, Middlegame iff 10 < n <= 30 and Endgame iff n > 30
(so cpl = 50 is Good Move, 51 and 100 Inaccuracy, 101 and 300 Mistake,
301 Blunder; n = 10 is Opening, 11 and 30 Middlegame, 31 Endgame). -/
theorem severity_and_phase_boundaries :
    (∀ cpl : Int, 0 ≤ cpl →
      ((get_mistake_category cpl = "Blunder" ↔ cpl > 300) ∧
       (get_mistake_category cpl = "Mistake" ↔ 100 < cpl ∧ cpl ≤ 300) ∧
       (get_mistake_category cpl = "Inaccuracy" ↔ 50 < cpl ∧ cpl ≤ 100) ∧
       (get_mistake_category cpl = "Good Move" ↔ cpl ≤ 50))) ∧
    (∀ n : Int, 1 ≤ n →
      ((get_game_phase n = "Opening" ↔ n ≤ 10) ∧
       (get_game_phase n = "Middlegame" ↔ 10 < n ∧ n ≤ 30) ∧
       (get_game_phase n = "Endgame" ↔ 30 < n))) := by
  constructor
  · intro cpl _
    unfold get_mistake_category
    split_ifs with h1 h2 h3 <;>
      refine ⟨⟨fun hs => ?_, fun hn => ?_⟩, ⟨fun hs => ?_, fun hn => ?_⟩,
              ⟨fun hs => ?_, fun hn => ?_⟩, ⟨fun hs => ?_, fun hn => ?_⟩⟩ <;>
      first
        | rfl
        | omega
        | (exact absurd hs (by decide))
  · intro n _
    unfold get_game_phase
    split_ifs with h1 h2 <;>
      refine ⟨⟨fun hs => ?_, fun hn => ?_⟩, ⟨fun hs => ?_, fun hn => ?_⟩,
              ⟨fun hs => ?_, fun hn => ?_⟩⟩ <;>
      first
        | rfl
        | omega
        | (exact absurd hs (by decide))

/-- Witness for C3 at concrete inputs: the boundary values named by the
claim, checked through the theorem at cpl = 301 and n = 31. -/
theorem severity_and_phase_boundaries_witness :
    (get_mistake_category 301 = "Blunder" ↔ (301 : Int) > 300) ∧
    (get_game_phase 31 = "Endgame" ↔ (30 : Int) < 31) :=
  ⟨(severity_and_phase_boundaries.1 301 (by decide)).1,
   (severity_and_phase_boundaries.2 31 (by decide)).2.2⟩

/-- C8 (amended): closer winning mates strictly outrank farther ones;
a winning mate at distance N1 strictly outranks a losing mate at
distance N2 whenever N1 < 20000 + |N2| (in particular for every
realistic winning distance N1 ≤ 20000); and a winning mate at distance
N strictly outranks every plain centipawn score c with c < 10000 - N. -/
theorem mate_order_amended :
    (∀ n1 n2 : Int, 0 < n1 → n1 < n2 →
      score_to_cp (Score.mate n1) 10000 > score_to_cp (Score.mate n2) 10000) ∧
    (∀ n1 n2 : Int, 0 < n1 → n2 < 0 → n1 < 20000 + (n2.natAbs : Int) →
      score_to_cp (Score.mate n1) 10000 > score_to_cp (Score.mate n2) 10000) ∧
    (∀ n c : Int, 0 < n → c < 10000 - n →
      score_to_cp (Score.mate n) 10000 > score_to_cp (Score.cp c) 10000) := by
  refine ⟨fun n1 n2 h1 h2 => ?_, fun n1 n2 h1 h2 h3 => ?_, fun n c h1 h2 => ?_⟩
  · rw [score_to_cp_mate, score_to_cp_mate]
    rw [if_pos h1, if_pos (show n2 > 0 by omega)]
    omega
  · rw [score_to_cp_mate, score_to_cp_mate]
    rw [if_pos h1, if_neg (show ¬ n2 > 0 by omega)]
    omega
  · rw [score_to_cp_mate, score_to_cp_cp, if_pos h1]
    omega

/-- C4: aggregating a non-empty list of per-game results yields a
summary whose CPL list is the concatenation of the per-game lists
(hence of length the sum of the per-game lengths), whose move count is
the sum of the per-game counts, and whose mistake-label and phase
accumulators are the label-wise / phase-wise sums across games, a
label or phase absent from a game contributing its defaultdict 0. -/
theorem aggregator_componentwise (l : List AnalysisData) (h : l ≠ []) :
    ∃ s, aggregate_all_games l = some s ∧
      s.total_user_cpl_values = (l.map AnalysisData.user_cpl_values).flatten ∧
      s.total_user_cpl_values.length =
        (l.map (fun d => d.user_cpl_values.length)).sum ∧
      s.total_moves_analyzed = (l.map AnalysisData.moves_analyzed).sum ∧
      (∀ k, s.mistakes_by_phase k = (l.map (fun d => d.mistakes_by_phase k)).sum) ∧
      (∀ k, (s.phase_cpl_sum k).cpl =
              (l.map (fun d => (d.phase_cpl_sum k).cpl)).sum ∧
            (s.phase_cpl_sum k).count =
              (l.map (fun d => (d.phase_cpl_sum k).count)).sum) := by
  refine ⟨l.foldl aggregate_step initial_final_summary, ?_, ?_, ?_, ?_, ?_, ?_⟩
  · cases l with
    | nil => exact absurd rfl h
    | cons d t => rfl
  · rw [(aggregate_foldl_spec l initial_final_summary).1]
    simp [initial_final_summary]
  · rw [(aggregate_foldl_spec l initial_final_summary).1]
    simp only [initial_final_summary, List.nil_append, List.length_flatten,
      List.map_map]
    rfl
  · rw [(aggregate_foldl_spec l initial_final_summary).2.1]
    simp [initial_final_summary]
  · intro k
    rw [(aggregate_foldl_spec l initial_final_summary).2.2.1 k]
    simp [initial_final_summary]
  · intro k
    obtain ⟨hc, hn⟩ := (aggregate_foldl_spec l initial_final_summary).2.2.2 k
    rw [hc, hn]
    simp [initial_final_summary]

/-- Witness for C4 at a concrete input: the singleton list holding
`sample_game_data` is non-empty, so the aggregator's componentwise
description holds of its output. -/
theorem aggregator_componentwise_witness :
    [sample_game_data] ≠ [] ∧
    ∃ s, aggregate_all_games [sample_game_data] = some s ∧
      s.total_user_cpl_values =
        ([sample_game_data].map AnalysisData.user_cpl_values).flatten ∧
      s.total_user_cpl_values.length =
        ([sample_game_data].map (fun d => d.user_cpl_values.length)).sum ∧
      s.total_moves_analyzed =
        ([sample_game_data].map AnalysisData.moves_analyzed).sum ∧
      (∀ k, s.mistakes_by_phase k =
        ([sample_game_data].map (fun d => d.mistakes_by_phase k)).sum) ∧
      (∀ k, (s.phase_cpl_sum k).cpl =
              ([sample_game_data].map (fun d => (d.phase_cpl_sum k).cpl)).sum ∧
            (s.phase_cpl_sum k).count =
              ([sample_game_data].map (fun d => (d.phase_cpl_sum k).count)).sum) :=
  ⟨List.cons_ne_nil _ _,
   aggregator_componentwise [sample_game_data] (List.cons_ne_nil _ _)⟩

/-- Witness for C8 (amended) at concrete inputs: mate-in-2 outranks
mate-in-5, mate-in-2 outranks mate-in-(-3), and mate-in-2 outranks a
+500 centipawn score. -/
theorem mate_order_amended_witness :
    (score_to_cp (Score.mate 2) 10000 > score_to_cp (Score.mate 5) 10000 ∧
     score_to_cp (Score.mate 2) 10000 > score_to_cp (Score.mate (-3)) 10000) ∧
    score_to_cp (Score.mate 2) 10000 > score_to_cp (Score.cp 500) 10000 :=
  ⟨⟨mate_order_amended.1 2 5 (by decide) (by decide),
    mate_order_amended.2.1 2 (-3) (by decide) (by decide) (by decide)⟩,
    mate_order_amended.2.2 2 500 (by decide) (by decide)⟩

/-- C6: aggregating the empty sequence yields the `None` sentinel; the
reporter given the sentinel prints only the no-data message, and given
a summary with an empty CPL list prints only the no-moves message —
both early returns happen before any average is computed, so no
division by zero can occur. -/
theorem empty_input_early_returns :
    aggregate_all_games [] = none ∧
    generate_report none = [ReportLine.noData] ∧
    ∀ s : FinalSummary, s.total_user_cpl_values = [] →
      generate_report (some s) = [ReportLine.noMoves] := by
  refine ⟨rfl, rfl, fun s h => ?_⟩
  simp [generate_report, h]

/-- Witness for C6 at a concrete input: the summary with no tracked
moves at all. -/
theorem empty_input_early_returns_witness :
    initial_final_summary.total_user_cpl_values = [] ∧
    generate_report (some initial_final_summary) = [ReportLine.noMoves] :=
  ⟨rfl, empty_input_early_returns.2.2 initial_final_summary rfl⟩

/-- C7 (code bug): the save routine never commits a row.  The tuple
handed to `cursor.execute` references the locals `overall_acpl`,
`opening_acpl`, `middlegame_acpl` and `endgame_acpl`, which no
statement of `save_game_analysis` binds; evaluating it raises
`NameError`, the `except` logs it and rolls the transaction back, so
the upsert the spec promises — with the computed overall and per-phase
average centipawn losses — never happens, for any input. -/
theorem save_never_commits (sha256hex : String → String)
    (username game_pgn : String) (headers : GameHeaders)
    (analysis_data : AnalysisData) :
    save_game_analysis sha256hex username game_pgn headers analysis_data
      = none := rfl

/-- C9 (code bug): a connection failure on the archives-index request —
one that raises before any response object exists — escapes the
fetcher instead of being caught: the `except` handler's own
`response.status_code` read raises `UnboundLocalError`.  A non-2xx
archives response, by contrast, is handled and yields the empty list. -/
theorem fetch_connection_failure_escapes (msg : String)
    (archive_oracle : String → HttpResult (List (Option String)))
    (max_games : Nat) :
    fetch_chessdotcom_games
        { archives_get := .connError msg, archive_get := archive_oracle }
        max_games =
      .error "UnboundLocalError: local variable response referenced before assignment" ∧
    fetch_chessdotcom_games
        { archives_get := .response 404 [], archive_get := archive_oracle }
        max_games = .ok [] :=
  ⟨rfl, rfl⟩

/-- C10: every result the analyzer produces satisfies the structural
invariant — its move count equals the length of its CPL list and the
sum of the per-phase move counts, and the composite mistake-label
counts total at most the move count — and the aggregator's output
satisfies the same invariant whenever every input does. -/
theorem analyzer_and_aggregator_invariant :
    (∀ (game : GameRec) (engine : Engine) (username : String),
      AnalysisInv (analyze_game game engine username)) ∧
    (∀ (l : List AnalysisData) (s : FinalSummary),
      (∀ d ∈ l, AnalysisInv d) → aggregate_all_games l = some s →
      SummaryInv s) := by
  constructor
  · intro game engine username
    exact analyze_foldl_inv engine username game.white game.black game.moves
      (⟨game.startTurn, []⟩, 0, initial_analysis_data) initial_analysis_data_inv
  · exact aggregate_preserves_inv

/-- Witness for C10 at concrete inputs: the sample game under the
constant-evaluation engine, and the singleton aggregation of the
sample per-game result. -/
theorem analyzer_and_aggregator_invariant_witness :
    AnalysisInv (analyze_game sample_game sample_engine "alice") ∧
    ((∀ d ∈ [sample_game_data], AnalysisInv d) ∧
     aggregate_all_games [sample_game_data] =
       some (aggregate_step initial_final_summary sample_game_data) ∧
     SummaryInv (aggregate_step initial_final_summary sample_game_data)) :=
  ⟨analyzer_and_aggregator_invariant.1 sample_game sample_engine "alice",
   fun d hd => by
     rcases List.mem_singleton.mp hd with rfl
     exact ⟨rfl, by decide, by decide⟩,
   rfl,
   analyzer_and_aggregator_invariant.2 [sample_game_data] _
     (fun d hd => by
       rcases List.mem_singleton.mp hd with rfl
       exact ⟨rfl, by decide, by decide⟩)
     rfl⟩

end ChessCoach
